import Mathlib

/-!
Shallow embedding of the glyph/path core of the repository
(src/src/glyph.js, which holds the concatenated sources of the
`Glyph` module and the `Path` module).

Conventions of the embedding:
* JavaScript numbers are modelled as rationals (`ℚ`).
* A JavaScript value that may be `null`/`undefined` is modelled as an
  `Option`.
* Methods that would throw a `TypeError` on a `null` receiver field
  (`this.font`, `this.path`) return `Option` results, `none` being the
  thrown case.
* The in-place `push` of a command list is modelled by appending to the
  list carried through a fold, mirroring each `for` loop of the source.
-/

namespace OT

/-- The command variant stored in `Path.commands`: a tagged record with
`type` one of `M`, `L`, `Q`, `C`, `Z` and the coordinate fields each type
carries (src/src/glyph.js, `Path.prototype.moveTo` … `closePath`). -/
inductive PathCommand where
  | move (x y : ℚ)
  | line (x y : ℚ)
  | quad (x1 y1 x y : ℚ)
  | curve (x1 y1 x2 y2 x y : ℚ)
  | close
deriving DecidableEq

/-- `Path` of src/src/glyph.js: ordered command list plus paint style.
`fill`/`stroke` are colour strings or `null` (`none`). -/
structure Path where
  commands : List PathCommand
  fill : Option String
  stroke : Option String
  strokeWidth : ℚ
deriving DecidableEq

/-- `new path.Path()`: empty commands, fill `'black'`, stroke `null`,
strokeWidth `1`. -/
def Path.new : Path :=
  { commands := [], fill := some "black", stroke := none, strokeWidth := 1 }

/-- `Path.prototype.moveTo`: pushes a `M` command. -/
def Path.moveTo (p : Path) (x y : ℚ) : Path :=
  { p with commands := p.commands ++ [PathCommand.move x y] }

/-- `Path.prototype.lineTo`: pushes an `L` command. -/
def Path.lineTo (p : Path) (x y : ℚ) : Path :=
  { p with commands := p.commands ++ [PathCommand.line x y] }

/-- `Path.prototype.quadraticCurveTo` (= `quadTo`): pushes a `Q` command. -/
def Path.quadraticCurveTo (p : Path) (x1 y1 x y : ℚ) : Path :=
  { p with commands := p.commands ++ [PathCommand.quad x1 y1 x y] }

/-- `Path.prototype.bezierCurveTo` (= `curveTo`): pushes a `C` command. -/
def Path.bezierCurveTo (p : Path) (x1 y1 x2 y2 x y : ℚ) : Path :=
  { p with commands := p.commands ++ [PathCommand.curve x1 y1 x2 y2 x y] }

/-- `Path.prototype.closePath` (= `close`): pushes a `Z` command. -/
def Path.closePath (p : Path) : Path :=
  { p with commands := p.commands ++ [PathCommand.close] }

/-- The external font collaborator: the glyph only reads `unitsPerEm`. -/
structure Font where
  unitsPerEm : ℚ
deriving DecidableEq

/-- One TrueType contour point as consumed by `getContours`:
coordinates, the on-curve flag and the last-point-of-contour flag. -/
structure ContourPoint where
  x : ℚ
  y : ℚ
  onCurve : Bool
  lastPointOfContour : Bool
deriving DecidableEq

/-- The `Glyph` object's fields as set up by the constructor
(src/src/glyph.js lines 14-26); `points` is attached externally by the
loader and is absent (`none`) otherwise. -/
structure Glyph where
  font : Option Font
  index : ℤ
  name : Option String
  unicode : Option ℕ
  unicodes : List (Option ℕ)
  xMin : ℚ
  yMin : ℚ
  xMax : ℚ
  yMax : ℚ
  advanceWidth : ℚ
  path : Option Path
  points : Option (List ContourPoint)
deriving DecidableEq

/-- The `options` bag passed to the `Glyph` constructor: every field may
be `undefined` (`none`). -/
structure GlyphOptions where
  font : Option Font
  index : Option ℤ
  name : Option String
  unicode : Option ℕ
  unicodes : Option (List (Option ℕ))
  xMin : Option ℚ
  yMin : Option ℚ
  xMax : Option ℚ
  yMax : Option ℚ
  advanceWidth : Option ℚ
  path : Option Path
deriving DecidableEq

/-- JavaScript `o || d` for an optional number: `undefined` and `0` are
falsy, any other number is returned unchanged. -/
def jsOrNum (o : Option ℚ) (d : ℚ) : ℚ :=
  match o with
  | none => d
  | some v => if v = 0 then d else v

/-- JavaScript `o || d` for an optional integer (used for `index`). -/
def jsOrInt (o : Option ℤ) (d : ℤ) : ℤ :=
  match o with
  | none => d
  | some v => if v = 0 then d else v

/-- The `Glyph(options)` constructor (src/src/glyph.js lines 14-26).
The `unicodes` initializer is the unparenthesised
`options.unicodes || options.unicode !== undefined ? [options.unicode] : []`,
which JavaScript parses as
`(options.unicodes || options.unicode !== undefined) ? [options.unicode] : []`
because `||` binds tighter than `?:`; a supplied array (`some _`) is
always truthy.  `this.unicode = options.unicode || undefined` turns a
falsy code point `0` into `undefined`. -/
def Glyph.ofOptions (o : GlyphOptions) : Glyph :=
  { font := o.font
    index := jsOrInt o.index 0
    name := o.name
    unicode := match o.unicode with
      | none => none
      | some u => if u = 0 then none else some u
    unicodes := if o.unicodes.isSome || o.unicode.isSome then [o.unicode] else []
    xMin := jsOrNum o.xMin 0
    yMin := jsOrNum o.yMin 0
    xMax := jsOrNum o.xMax 0
    yMax := jsOrNum o.yMax 0
    advanceWidth := jsOrNum o.advanceWidth 0
    path := o.path
    points := none }

/-- The body of the `for` loop of `Glyph.prototype.getPath`
(src/src/glyph.js lines 48-64): each stored command appends one command
of the same type to the fresh path `p`, with every coordinate pair
`(px, py)` turned into `(x + px*scale, y + (-py*scale))`. -/
def getPathLoop (x y scale : ℚ) : List PathCommand → Path → Path
  | [], p => p
  | cmd :: rest, p =>
      getPathLoop x y scale rest
        (match cmd with
         | PathCommand.move px py => p.moveTo (x + px * scale) (y + (-py * scale))
         | PathCommand.line px py => p.lineTo (x + px * scale) (y + (-py * scale))
         | PathCommand.quad x1 y1 px py =>
             p.quadraticCurveTo (x + x1 * scale) (y + (-y1 * scale))
               (x + px * scale) (y + (-py * scale))
         | PathCommand.curve x1 y1 x2 y2 px py =>
             p.bezierCurveTo (x + x1 * scale) (y + (-y1 * scale))
               (x + x2 * scale) (y + (-y2 * scale))
               (x + px * scale) (y + (-py * scale))
         | PathCommand.close => p.closePath)

/-- `Glyph.prototype.getPath(x, y, fontSize)` (src/src/glyph.js lines
40-66): `scale = 1 / this.font.unitsPerEm * fontSize`, then the loop
above over `this.path.commands` into a `new path.Path()`.  A `null`
`font` or `path` would throw in JavaScript, modelled as `none`. -/
def Glyph.getPath (g : Glyph) (x y fontSize : ℚ) : Option Path :=
  match g.font, g.path with
  | some f, some pp =>
      some (getPathLoop x y (1 / f.unitsPerEm * fontSize) pp.commands Path.new)
  | _, _ => none

/-- Specification-side per-command transform of the render-path claim:
every coordinate pair `(px, py)` maps to
`(originX + px*scale, originY - py*scale)`, the command type unchanged. -/
def renderSpecMap (x y scale : ℚ) : PathCommand → PathCommand
  | PathCommand.move px py => PathCommand.move (x + px * scale) (y - py * scale)
  | PathCommand.line px py => PathCommand.line (x + px * scale) (y - py * scale)
  | PathCommand.quad x1 y1 px py =>
      PathCommand.quad (x + x1 * scale) (y - y1 * scale)
        (x + px * scale) (y - py * scale)
  | PathCommand.curve x1 y1 x2 y2 px py =>
      PathCommand.curve (x + x1 * scale) (y - y1 * scale)
        (x + x2 * scale) (y - y2 * scale)
        (x + px * scale) (y - py * scale)
  | PathCommand.close => PathCommand.close

/-- The command's type letter (`cmd.type` of the source records). -/
def cmdLetter : PathCommand → String
  | PathCommand.move _ _ => "M"
  | PathCommand.line _ _ => "L"
  | PathCommand.quad _ _ _ _ => "Q"
  | PathCommand.curve _ _ _ _ _ _ => "C"
  | PathCommand.close => "Z"

/-- Modelled from the spec: the check module (`require('./check')`, whose
source is not under src/) supplies `check.argument(predicate, message)`,
which per the spec raises a fatal, descriptive, unrecoverable error when
the predicate is false and otherwise lets the computation proceed.  We
model it on a value `a` returned after the check. -/
def checkArgument (cond : Bool) (msg : String) (a : α) : Except String α :=
  if cond then Except.ok a else Except.error msg

/-- The scanning loop of `Glyph.prototype.getContours`
(src/src/glyph.js lines 78-85): each point is pushed onto the current
contour; a point flagged `lastPointOfContour` flushes the current
contour onto the contour list.  Returns the pair
(contour list, leftover current contour). -/
def contoursLoop :
    List ContourPoint → List (List ContourPoint) → List ContourPoint →
      List (List ContourPoint) × List ContourPoint
  | [], contours, current => (contours, current)
  | pt :: rest, contours, current =>
      if pt.lastPointOfContour then
        contoursLoop rest (contours ++ [current ++ [pt]]) []
      else
        contoursLoop rest contours (current ++ [pt])

/-- `Glyph.prototype.getContours` (src/src/glyph.js lines 71-88):
absent `points` returns `[]`; otherwise the scan above runs and
`check.argument(currentContour.length === 0, …)` guards the return. -/
def Glyph.getContours (g : Glyph) : Except String (List (List ContourPoint)) :=
  match g.points with
  | none => Except.ok []
  | some pts =>
      let r := contoursLoop pts [] []
      checkArgument (r.2.length == 0)
        "There are still points left in the current contour." r.1

/-- The coordinate-collecting loop of `Glyph.prototype.getMetrics`
(src/src/glyph.js lines 95-109): every non-`Z` command pushes `x`/`y`,
`Q` and `C` additionally push `x1`/`y1`, `C` additionally `x2`/`y2`. -/
def metricsLoop :
    List PathCommand → List ℚ → List ℚ → List ℚ × List ℚ
  | [], xs, ys => (xs, ys)
  | c :: rest, xs, ys =>
      match c with
      | PathCommand.move x y => metricsLoop rest (xs ++ [x]) (ys ++ [y])
      | PathCommand.line x y => metricsLoop rest (xs ++ [x]) (ys ++ [y])
      | PathCommand.quad x1 y1 x y =>
          metricsLoop rest (xs ++ [x, x1]) (ys ++ [y, y1])
      | PathCommand.curve x1 y1 x2 y2 x y =>
          metricsLoop rest (xs ++ [x, x1, x2]) (ys ++ [y, y1, y2])
      | PathCommand.close => metricsLoop rest xs ys

/-- `Math.min.apply(null, l)`: the iterated binary minimum; on the empty
list JavaScript yields `Infinity`, a non-finite value modelled as
`none`. -/
def jsMin (l : List ℚ) : Option ℚ :=
  match l with
  | [] => none
  | x :: xs => some (xs.foldl min x)

/-- `Math.max.apply(null, l)`: the iterated binary maximum; on the empty
list JavaScript yields `-Infinity`, modelled as `none`. -/
def jsMax (l : List ℚ) : Option ℚ :=
  match l with
  | [] => none
  | x :: xs => some (xs.foldl max x)

/-- The record returned by `Glyph.prototype.getMetrics`.  The bounding
box fields are `Option`s because on an outline with no coordinate-bearing
command the source's `Math.min`/`Math.max` produce non-finite values
(and `rightSideBearing`, computed from them, is then non-finite too). -/
structure Metrics where
  xMin : Option ℚ
  yMin : Option ℚ
  xMax : Option ℚ
  yMax : Option ℚ
  leftSideBearing : ℚ
  rightSideBearing : Option ℚ
deriving DecidableEq

/-- `Glyph.prototype.getMetrics` (src/src/glyph.js lines 91-119):
collect the coordinates, reduce with min/max, set
`leftSideBearing = 0` and
`rightSideBearing = advanceWidth - leftSideBearing - (xMax - xMin)`.
A `null` `path` would throw, modelled as `none`. -/
def Glyph.getMetrics (g : Glyph) : Option Metrics :=
  match g.path with
  | none => none
  | some pp =>
      let xy := metricsLoop pp.commands [] []
      let xMin := jsMin xy.1
      let xMax := jsMax xy.1
      let lsb : ℚ := 0
      some { xMin := xMin
             yMin := jsMin xy.2
             xMax := xMax
             yMax := jsMax xy.2
             leftSideBearing := lsb
             rightSideBearing :=
               match xMin, xMax with
               | some a, some b => some (g.advanceWidth - lsb - (b - a))
               | _, _ => none }

/-- Specification-side list of the x coordinates one command contributes
to the metrics computation, in the push order of the source. -/
def cmdXs : PathCommand → List ℚ
  | PathCommand.move x _ => [x]
  | PathCommand.line x _ => [x]
  | PathCommand.quad x1 _ x _ => [x, x1]
  | PathCommand.curve x1 _ x2 _ x _ => [x, x1, x2]
  | PathCommand.close => []

/-- Specification-side list of the y coordinates one command contributes
to the metrics computation, in the push order of the source. -/
def cmdYs : PathCommand → List ℚ
  | PathCommand.move _ y => [y]
  | PathCommand.line _ y => [y]
  | PathCommand.quad _ y1 _ y => [y, y1]
  | PathCommand.curve _ y1 _ y2 _ y => [y, y1, y2]
  | PathCommand.close => []

/-- All x coordinates collected over a command list. -/
def collectXs : List PathCommand → List ℚ
  | [] => []
  | c :: rest => cmdXs c ++ collectXs rest

/-- All y coordinates collected over a command list. -/
def collectYs : List PathCommand → List ℚ
  | [] => []
  | c :: rest => cmdYs c ++ collectYs rest

/-- Concatenation of a list of lists (the contours flattened back into
one point list). -/
def flat : List (List α) → List α
  | [] => []
  | l :: ls => l ++ flat ls

/-- JavaScript `Math.round`: round half toward positive infinity. -/
def jsRound (v : ℚ) : ℤ := ⌊v + 1 / 2⌋

/-- The decimal digit character of `n % 10`. -/
def decDigit (n : ℕ) : Char := Char.ofNat (48 + n % 10)

/-- Decimal digits of a natural number, most significant first
(fuel-structured so that it evaluates by kernel reduction). -/
def natDecCharsAux : ℕ → ℕ → List Char
  | 0, _ => []
  | fuel + 1, n =>
      if n < 10 then [decDigit n]
      else natDecCharsAux fuel (n / 10) ++ [decDigit n]

/-- Decimal digits of a natural number, most significant first. -/
def natDecChars (n : ℕ) : List Char := natDecCharsAux (n + 1) n

/-- JavaScript's decimal rendering of an integer (`String(i)`). -/
def intToString (i : ℤ) : String :=
  (if i < 0 then "-" else "") ++ String.mk (natDecChars i.natAbs)

/-- The lowest `d` decimal digits of `n`, zero padded to exactly `d`
characters, most significant first. -/
def padDigits : ℕ → ℕ → List Char
  | _, 0 => []
  | n, d + 1 => padDigits (n / 10) d ++ [decDigit n]

/-- JavaScript `Number.prototype.toFixed(dp)` on the values this program
prints: per the ECMAScript algorithm, the sign is taken off first, then
`n` is the integer nearest `|v| * 10^dp` (ties to the larger `n`), and
the digits of `n` are printed with a decimal point `dp` places from the
right (no point at all when `dp = 0`). -/
def toFixedChars (dp : ℕ) (v : ℚ) : List Char :=
  let sign : List Char := if v < 0 then ['-'] else []
  let n : ℕ := (⌊|v| * (10 : ℚ) ^ dp + 1 / 2⌋).toNat
  if dp = 0 then sign ++ natDecChars n
  else sign ++ natDecChars (n / 10 ^ dp) ++ ['.'] ++ padDigits n dp

/-- String form of `toFixedChars`. -/
def toFixed (dp : ℕ) (v : ℚ) : String := String.mk (toFixedChars dp v)

/-- `floatToString` of `Path.prototype.toPathData` (src/src/glyph.js
lines 414-420): a value with `Math.round(v) === v` prints as the
rounded integer (hence with no decimal point), anything else prints as
`v.toFixed(decimalPlaces)`. -/
def floatToString (dp : ℕ) (v : ℚ) : String :=
  if (jsRound v : ℚ) = v then intToString (jsRound v) else toFixed dp v

/-- Number of characters after the last `'.'` of a string (`0` when the
string has no `'.'`). -/
def fracDigits (s : String) : ℕ :=
  if '.' ∈ s.data then (s.data.reverse.takeWhile (fun c => c != '.')).length
  else 0

/-- The accumulating loop of `packValues` (src/src/glyph.js lines
422-432): before the value at index `i` a space is appended exactly when
`v >= 0 && i > 0`, then the value's text. -/
def packValuesGo (dp : ℕ) : List ℚ → ℕ → String → String
  | [], _, s => s
  | v :: rest, i, s =>
      packValuesGo dp rest (i + 1)
        (s ++ (if 0 ≤ v ∧ 0 < i then " " else "") ++ floatToString dp v)

/-- `packValues` of `Path.prototype.toPathData`. -/
def packValues (dp : ℕ) (vs : List ℚ) : String := packValuesGo dp vs 0 ""

/-- The text one command contributes to `toPathData` (src/src/glyph.js
lines 435-448): its type letter immediately followed by its packed
coordinate list (`Z` carries no coordinates). -/
def cmdText (dp : ℕ) : PathCommand → String
  | PathCommand.move x y => "M" ++ packValues dp [x, y]
  | PathCommand.line x y => "L" ++ packValues dp [x, y]
  | PathCommand.curve x1 y1 x2 y2 x y =>
      "C" ++ packValues dp [x1, y1, x2, y2, x, y]
  | PathCommand.quad x1 y1 x y => "Q" ++ packValues dp [x1, y1, x, y]
  | PathCommand.close => "Z"

/-- The `d += …` loop of `Path.prototype.toPathData`. -/
def toPathDataLoop (dp : ℕ) : List PathCommand → String → String
  | [], d => d
  | c :: rest, d => toPathDataLoop dp rest (d ++ cmdText dp c)

/-- `Path.prototype.toPathData(decimalPlaces)` (src/src/glyph.js lines
411-450); the `decimalPlaces !== undefined ? … : 2` default is applied
by callers passing `2`. -/
def Path.toPathData (p : Path) (dp : ℕ) : String :=
  toPathDataLoop dp p.commands ""

/-- Index-tagging of a list, starting at `i`. -/
def withIdx : ℕ → List α → List (ℕ × α)
  | _, [] => []
  | i, a :: as => (i, a) :: withIdx (i + 1) as

/-- Concatenation of a list of strings. -/
def strJoin : List String → String
  | [] => ""
  | s :: rest => s ++ strJoin rest

/-- Specification-side separator rule: a space before the value at
index `i` exactly when the value is non-negative and it is not the
first value of its command. -/
def sepSpec (i : ℕ) (v : ℚ) : String := if 0 ≤ v ∧ i ≠ 0 then " " else ""

/-- Specification-side packing of one command's coordinate list. -/
def packSpec (dp : ℕ) (vs : List ℚ) : String :=
  strJoin ((withIdx 0 vs).map (fun iv => sepSpec iv.1 iv.2 ++ floatToString dp iv.2))

/-- Specification-side coordinate list of a command, in print order. -/
def cmdCoords : PathCommand → List ℚ
  | PathCommand.move x y => [x, y]
  | PathCommand.line x y => [x, y]
  | PathCommand.quad x1 y1 x y => [x1, y1, x, y]
  | PathCommand.curve x1 y1 x2 y2 x y => [x1, y1, x2, y2, x, y]
  | PathCommand.close => []

/-- JavaScript truthiness of a string-or-null value: `null`/`undefined`
and the empty string are falsy, every other string truthy. -/
def jsTruthyStr : Option String → Bool
  | none => false
  | some s => !(s == "")

/-- The numeric value of a decimal digit character, `none` otherwise. -/
def decVal? (c : Char) : Option ℕ :=
  if 48 ≤ c.toNat ∧ c.toNat ≤ 57 then some (c.toNat - 48) else none

/-- Accumulating decimal parse of a character list; fails on the first
non-digit. -/
def digitsToNat? : List Char → ℕ → Option ℕ
  | [], acc => some acc
  | c :: rest, acc =>
      match decVal? c with
      | some d => digitsToNat? rest (acc * 10 + d)
      | none => none

/-- Modelled: JavaScript `ToNumber` restricted to the strings this
program stores in `fill`/`stroke`: the empty string converts to `0`, a
string of decimal digits (optionally `-`-signed) to that integer, and
anything else — in particular every colour keyword such as `'black'` or
`'red'` — to NaN, modelled as `none`. -/
def jsStringToNumber? (s : String) : Option ℤ :=
  match s.data with
  | [] => some 0
  | '-' :: rest =>
      match rest with
      | [] => none
      | _ => (digitsToNat? rest 0).map (fun n => -(n : ℤ))
  | l => (digitsToNat? l 0).map (fun n => (n : ℤ))

/-- JavaScript `ToInt32`: wrap an integer into `[-2^31, 2^31)`. -/
def toInt32 (n : ℤ) : ℤ := (n + 2 ^ 31).emod (2 ^ 32) - 2 ^ 31

/-- `ToInt32` of the `fill` value as the left operand of `&`:
`null` and NaN convert to `0`, a numeric string to its wrapped value. -/
def fillToInt32 : Option String → ℤ
  | none => 0
  | some s =>
      match jsStringToNumber? s with
      | none => 0
      | some n => toInt32 n

/-- JavaScript bitwise `&` for the one use in `toSVG`, where the right
operand is `ToInt32` of a boolean, hence `0` or `1`: `a & 0 = 0`, and
`a & 1` is the lowest bit of `a`'s two's complement form, which for an
integer is `a.emod 2`. -/
def jsAndBit (a b : ℤ) : ℤ := if b = 1 then a.emod 2 else 0

/-- `Path.prototype.toSVG(decimalPlaces)` (src/src/glyph.js lines
455-471).  The source's fill guard is `this.fill & this.fill !== 'black'`
with the *bitwise* `&`, which (since `!==` binds tighter than `&`)
coerces `this.fill` itself through `ToInt32`; the guard is truthy only
when that number has a set low bit and the comparison is true.  The
stroke guard is plain truthiness.  `'' + this.strokeWidth` is rendered
with `jsNumToString` below. -/
def jsNumToString (q : ℚ) : String :=
  if (jsRound q : ℚ) = q then intToString (jsRound q) else toFixed 20 q

/-- See `jsNumToString`; this is `Path.prototype.toSVG` itself. -/
def Path.toSVG (p : Path) (dp : ℕ) : String :=
  let svg := "<path d=\"" ++ p.toPathData dp ++ "\""
  let svg :=
    if jsAndBit (fillToInt32 p.fill) (if p.fill ≠ some "black" then 1 else 0) ≠ 0 then
      if p.fill = none then svg ++ " fill=\"none\""
      else svg ++ " fill=\"" ++ p.fill.getD "" ++ "\""
    else svg
  let svg :=
    if jsTruthyStr p.stroke then
      svg ++ " stroke=\"" ++ p.stroke.getD "" ++ "\" stroke-width=\"" ++
        jsNumToString p.strokeWidth ++ "\""
    else svg
  svg ++ "/>"

/-- One call a `Path` issues to a drawing context during
`Path.prototype.draw`. -/
inductive DrawCall where
  | beginPath
  | moveTo (x y : ℚ)
  | lineTo (x y : ℚ)
  | quadraticCurveTo (x1 y1 x y : ℚ)
  | bezierCurveTo (x1 y1 x2 y2 x y : ℚ)
  | closePath
  | setFillStyle (c : String)
  | fill
  | setStrokeStyle (c : String)
  | setLineWidth (w : ℚ)
  | stroke
deriving DecidableEq

/-- A drawing context (the RenderAdapter capability surface used by
`Path.prototype.draw`): an arbitrary sink state `σ` with one state
transformer per primitive the source calls. -/
structure Ctx (σ : Type) where
  beginPath : σ → σ
  moveTo : σ → ℚ → ℚ → σ
  lineTo : σ → ℚ → ℚ → σ
  quadraticCurveTo : σ → ℚ → ℚ → ℚ → ℚ → σ
  bezierCurveTo : σ → ℚ → ℚ → ℚ → ℚ → ℚ → ℚ → σ
  closePath : σ → σ
  setFillStyle : σ → String → σ
  fill : σ → σ
  setStrokeStyle : σ → String → σ
  setLineWidth : σ → ℚ → σ
  stroke : σ → σ

/-- The command loop of `Path.prototype.draw` (src/src/glyph.js lines
382-395): one context primitive per command, with the command's own
coordinates. -/
def drawLoop (ctx : Ctx σ) : List PathCommand → σ → σ
  | [], s => s
  | c :: rest, s =>
      drawLoop ctx rest
        (match c with
         | PathCommand.move x y => ctx.moveTo s x y
         | PathCommand.line x y => ctx.lineTo s x y
         | PathCommand.curve x1 y1 x2 y2 x y => ctx.bezierCurveTo s x1 y1 x2 y2 x y
         | PathCommand.quad x1 y1 x y => ctx.quadraticCurveTo s x1 y1 x y
         | PathCommand.close => ctx.closePath s)

/-- `Path.prototype.draw(ctx)` (src/src/glyph.js lines 379-405):
`beginPath`, the command loop, then `fillStyle = fill; fill()` when
`fill` is truthy and `strokeStyle = stroke; lineWidth = strokeWidth;
stroke()` when `stroke` is truthy. -/
def Path.draw (p : Path) (ctx : Ctx σ) (s : σ) : σ :=
  let s1 := ctx.beginPath s
  let s2 := drawLoop ctx p.commands s1
  let s3 :=
    if jsTruthyStr p.fill then ctx.fill (ctx.setFillStyle s2 (p.fill.getD ""))
    else s2
  if jsTruthyStr p.stroke then
    ctx.stroke (ctx.setLineWidth (ctx.setStrokeStyle s3 (p.stroke.getD "")) p.strokeWidth)
  else s3

/-- The recording context: its state is the ordered list of calls
received so far. -/
def traceCtx : Ctx (List DrawCall) :=
  { beginPath := fun s => s ++ [DrawCall.beginPath]
    moveTo := fun s x y => s ++ [DrawCall.moveTo x y]
    lineTo := fun s x y => s ++ [DrawCall.lineTo x y]
    quadraticCurveTo := fun s x1 y1 x y => s ++ [DrawCall.quadraticCurveTo x1 y1 x y]
    bezierCurveTo := fun s x1 y1 x2 y2 x y => s ++ [DrawCall.bezierCurveTo x1 y1 x2 y2 x y]
    closePath := fun s => s ++ [DrawCall.closePath]
    setFillStyle := fun s c => s ++ [DrawCall.setFillStyle c]
    fill := fun s => s ++ [DrawCall.fill]
    setStrokeStyle := fun s c => s ++ [DrawCall.setStrokeStyle c]
    setLineWidth := fun s w => s ++ [DrawCall.setLineWidth w]
    stroke := fun s => s ++ [DrawCall.stroke] }

/-- The ordered call sequence `draw` issues, obtained by drawing into
the recording context. -/
def Path.drawTrace (p : Path) : List DrawCall := p.draw traceCtx []

/-- Apply one recorded call to an arbitrary context. -/
def applyCall (ctx : Ctx σ) (s : σ) : DrawCall → σ
  | DrawCall.beginPath => ctx.beginPath s
  | DrawCall.moveTo x y => ctx.moveTo s x y
  | DrawCall.lineTo x y => ctx.lineTo s x y
  | DrawCall.quadraticCurveTo x1 y1 x y => ctx.quadraticCurveTo s x1 y1 x y
  | DrawCall.bezierCurveTo x1 y1 x2 y2 x y => ctx.bezierCurveTo s x1 y1 x2 y2 x y
  | DrawCall.closePath => ctx.closePath s
  | DrawCall.setFillStyle c => ctx.setFillStyle s c
  | DrawCall.fill => ctx.fill s
  | DrawCall.setStrokeStyle c => ctx.setStrokeStyle s c
  | DrawCall.setLineWidth w => ctx.setLineWidth s w
  | DrawCall.stroke => ctx.stroke s

/-- Replay a recorded call sequence into an arbitrary context. -/
def replay (ctx : Ctx σ) (s : σ) (calls : List DrawCall) : σ :=
  calls.foldl (applyCall ctx) s

/-- The single primitive call a command maps to. -/
def primCall : PathCommand → DrawCall
  | PathCommand.move x y => DrawCall.moveTo x y
  | PathCommand.line x y => DrawCall.lineTo x y
  | PathCommand.quad x1 y1 x y => DrawCall.quadraticCurveTo x1 y1 x y
  | PathCommand.curve x1 y1 x2 y2 x y => DrawCall.bezierCurveTo x1 y1 x2 y2 x y
  | PathCommand.close => DrawCall.closePath

/-- A glyph with every field at the constructor's default. -/
def baseGlyph : Glyph :=
  { font := none, index := 0, name := none, unicode := none, unicodes := []
    xMin := 0, yMin := 0, xMax := 0, yMax := 0, advanceWidth := 0
    path := none, points := none }

/-- A 1000-units-per-em font, as in the spec's scale example. -/
def fontEx : Font := { unitsPerEm := 1000 }

/-- A stored outline holding the spec's example point `(500, 300)`. -/
def pathEx : Path :=
  { commands := [PathCommand.move 500 300]
    fill := some "black", stroke := none, strokeWidth := 1 }

/-- The glyph of the render-path scale example. -/
def glyphEx : Glyph := { baseGlyph with font := some fontEx, path := some pathEx }

/-- The outline of the metrics example:
`Move(0,0), Line(10,0), Line(10,10), Line(0,10), Close`. -/
def pathSq : Path :=
  { commands := [PathCommand.move 0 0, PathCommand.line 10 0,
                 PathCommand.line 10 10, PathCommand.line 0 10,
                 PathCommand.close]
    fill := some "black", stroke := none, strokeWidth := 1 }

/-- The glyph of the metrics example (`advanceWidth = 12`). -/
def glyphSq : Glyph := { baseGlyph with path := some pathSq, advanceWidth := 12 }

/-- An outline with only a `Close` command (no coordinates at all). -/
def pathZ : Path :=
  { commands := [PathCommand.close]
    fill := some "black", stroke := none, strokeWidth := 1 }

/-- A glyph whose outline carries zero coordinate-bearing commands. -/
def glyphZ : Glyph := { baseGlyph with path := some pathZ, advanceWidth := 7 }

/-- A well-formed two-contour point list (flags at positions 0 and 2). -/
def ptsOk : List ContourPoint :=
  [{ x := 0, y := 0, onCurve := true, lastPointOfContour := true },
   { x := 1, y := 0, onCurve := true, lastPointOfContour := false },
   { x := 1, y := 1, onCurve := false, lastPointOfContour := true }]

/-- A glyph carrying the well-formed point list. -/
def glyphPts : Glyph := { baseGlyph with points := some ptsOk }

/-- A malformed point list: its final point is not flagged as last of
its contour. -/
def ptsBad : List ContourPoint :=
  [{ x := 0, y := 0, onCurve := true, lastPointOfContour := false }]

/-- A glyph carrying the malformed point list. -/
def glyphBad : Glyph := { baseGlyph with points := some ptsBad }

/-- Options supplying a `unicodes` list but no `unicode`. -/
def optsEx : GlyphOptions :=
  { font := none, index := none, name := none, unicode := none
    unicodes := some [some 65, some 66]
    xMin := none, yMin := none, xMax := none, yMax := none
    advanceWidth := none, path := none }

/-- An empty path whose fill is the non-default colour `'red'`. -/
def pathRed : Path :=
  { commands := [], fill := some "red", stroke := none, strokeWidth := 1 }

/-- An empty path whose fill is explicitly absent (`null`). -/
def pathNoFill : Path :=
  { commands := [], fill := none, stroke := none, strokeWidth := 1 }

/-! ## Lemmas -/

/-- The `getPath` loop only ever appends: it adds the code's transform
of each command, in order, to the accumulated path. -/
theorem getPathLoop_commands (x y scale : ℚ) :
    ∀ (cmds : List PathCommand) (p : Path),
      getPathLoop x y scale cmds p =
        { p with commands := p.commands ++
            cmds.map (fun cmd =>
              match cmd with
              | PathCommand.move px py =>
                  PathCommand.move (x + px * scale) (y + (-py * scale))
              | PathCommand.line px py =>
                  PathCommand.line (x + px * scale) (y + (-py * scale))
              | PathCommand.quad x1 y1 px py =>
                  PathCommand.quad (x + x1 * scale) (y + (-y1 * scale))
                    (x + px * scale) (y + (-py * scale))
              | PathCommand.curve x1 y1 x2 y2 px py =>
                  PathCommand.curve (x + x1 * scale) (y + (-y1 * scale))
                    (x + x2 * scale) (y + (-y2 * scale))
                    (x + px * scale) (y + (-py * scale))
              | PathCommand.close => PathCommand.close) }
  | [], p => by simp [getPathLoop]
  | cmd :: rest, p => by
      have ih := getPathLoop_commands x y scale rest
      cases cmd <;>
        simp [getPathLoop, ih, Path.moveTo, Path.lineTo,
          Path.quadraticCurveTo, Path.bezierCurveTo, Path.closePath]

/-- The code's per-command transform agrees with the specification's
`(px, py) ↦ (x + px·s, y − py·s)` transform, where the code's
`scale = 1/u · fontSize` is the spec's `fontSize / u`. -/
theorem codeMap_eq_renderSpecMap (x y u fontSize : ℚ) (cmd : PathCommand) :
    (match cmd with
      | PathCommand.move px py =>
          PathCommand.move (x + px * (1 / u * fontSize)) (y + (-py * (1 / u * fontSize)))
      | PathCommand.line px py =>
          PathCommand.line (x + px * (1 / u * fontSize)) (y + (-py * (1 / u * fontSize)))
      | PathCommand.quad x1 y1 px py =>
          PathCommand.quad (x + x1 * (1 / u * fontSize)) (y + (-y1 * (1 / u * fontSize)))
            (x + px * (1 / u * fontSize)) (y + (-py * (1 / u * fontSize)))
      | PathCommand.curve x1 y1 x2 y2 px py =>
          PathCommand.curve (x + x1 * (1 / u * fontSize)) (y + (-y1 * (1 / u * fontSize)))
            (x + x2 * (1 / u * fontSize)) (y + (-y2 * (1 / u * fontSize)))
            (x + px * (1 / u * fontSize)) (y + (-py * (1 / u * fontSize)))
      | PathCommand.close => PathCommand.close) =
      renderSpecMap x y (fontSize / u) cmd := by
  cases cmd <;> simp only [renderSpecMap] <;> congr 1 <;> ring

/-- `renderSpecMap` never changes a command's type letter. -/
theorem cmdLetter_renderSpecMap (x y s : ℚ) (cmd : PathCommand) :
    cmdLetter (renderSpecMap x y s cmd) = cmdLetter cmd := by
  cases cmd <;> rfl

/-- `flat` distributes over append. -/
theorem flat_append : ∀ (a b : List (List α)), flat (a ++ b) = flat a ++ flat b
  | [], b => by simp [flat]
  | l :: ls, b => by simp [flat, flat_append ls b]

/-- The contour scan flushes one contour per flagged point: the contour
list grows by exactly the number of `lastPointOfContour` flags. -/
theorem contoursLoop_fst_length :
    ∀ (pts : List ContourPoint) (cs : List (List ContourPoint))
      (cur : List ContourPoint),
      (contoursLoop pts cs cur).1.length =
        cs.length + pts.countP (fun q => q.lastPointOfContour)
  | [], cs, cur => by simp [contoursLoop]
  | pt :: rest, cs, cur => by
      cases hpt : pt.lastPointOfContour <;>
        simp [contoursLoop, hpt, contoursLoop_fst_length rest,
          List.countP_cons] <;> omega

/-- The contour scan loses no point and reorders nothing: the flushed
contours followed by the leftover current contour are the already
flushed contours, the current contour and the remaining points. -/
theorem contoursLoop_join :
    ∀ (pts : List ContourPoint) (cs : List (List ContourPoint))
      (cur : List ContourPoint),
      flat (contoursLoop pts cs cur).1 ++ (contoursLoop pts cs cur).2 =
        flat cs ++ cur ++ pts
  | [], cs, cur => by simp [contoursLoop]
  | pt :: rest, cs, cur => by
      cases hpt : pt.lastPointOfContour <;>
        simp [contoursLoop, hpt, contoursLoop_join rest, flat_append, flat]

/-- When the final point is flagged, the scan ends with an empty
in-progress contour. -/
theorem contoursLoop_last_flag :
    ∀ (pts : List ContourPoint) (cs : List (List ContourPoint))
      (cur : List ContourPoint) (h : pts ≠ []),
      (pts.getLast h).lastPointOfContour = true →
        (contoursLoop pts cs cur).2 = []
  | [], _, _, h => absurd rfl h
  | [pt], cs, cur, _ => by
      intro hflag
      simp [List.getLast] at hflag
      simp [contoursLoop, hflag]
  | pt :: pt2 :: rest, cs, cur, _ => by
      intro hflag
      rw [List.getLast_cons (by simp)] at hflag
      cases hpt : pt.lastPointOfContour
      · have ih := contoursLoop_last_flag (pt2 :: rest) cs (cur ++ [pt])
          (by simp) hflag
        simpa [contoursLoop, hpt] using ih
      · have ih := contoursLoop_last_flag (pt2 :: rest) (cs ++ [cur ++ [pt]]) []
          (by simp) hflag
        simpa [contoursLoop, hpt] using ih

/-- When the final point is not flagged, the scan ends with a non-empty
in-progress contour. -/
theorem contoursLoop_last_noflag :
    ∀ (pts : List ContourPoint) (cs : List (List ContourPoint))
      (cur : List ContourPoint) (h : pts ≠ []),
      (pts.getLast h).lastPointOfContour = false →
        (contoursLoop pts cs cur).2 ≠ []
  | [], _, _, h => absurd rfl h
  | [pt], cs, cur, _ => by
      intro hflag
      simp [List.getLast] at hflag
      simp [contoursLoop, hflag]
  | pt :: pt2 :: rest, cs, cur, _ => by
      intro hflag
      rw [List.getLast_cons (by simp)] at hflag
      cases hpt : pt.lastPointOfContour
      · have ih := contoursLoop_last_noflag (pt2 :: rest) cs (cur ++ [pt])
          (by simp) hflag
        simpa [contoursLoop, hpt] using ih
      · have ih := contoursLoop_last_noflag (pt2 :: rest) (cs ++ [cur ++ [pt]]) []
          (by simp) hflag
        simpa [contoursLoop, hpt] using ih

/-- The metrics loop collects exactly the per-command coordinate lists,
in push order. -/
theorem metricsLoop_eq :
    ∀ (cmds : List PathCommand) (xs ys : List ℚ),
      metricsLoop cmds xs ys = (xs ++ collectXs cmds, ys ++ collectYs cmds)
  | [], xs, ys => by simp [metricsLoop, collectXs, collectYs]
  | c :: rest, xs, ys => by
      cases c <;>
        simp [metricsLoop, collectXs, collectYs, cmdXs, cmdYs,
          metricsLoop_eq rest]

/-- A command list of only `Close` commands contributes no x
coordinates. -/
theorem collectXs_all_close :
    ∀ cmds : List PathCommand,
      (∀ c ∈ cmds, c = PathCommand.close) → collectXs cmds = []
  | [], _ => rfl
  | c :: rest, h => by
      have hc := h c (by simp)
      subst hc
      simpa [collectXs, cmdXs] using
        collectXs_all_close rest (fun c hc => h c (by simp [hc]))

/-- A command list of only `Close` commands contributes no y
coordinates. -/
theorem collectYs_all_close :
    ∀ cmds : List PathCommand,
      (∀ c ∈ cmds, c = PathCommand.close) → collectYs cmds = []
  | [], _ => rfl
  | c :: rest, h => by
      have hc := h c (by simp)
      subst hc
      simpa [collectYs, cmdYs] using
        collectYs_all_close rest (fun c hc => h c (by simp [hc]))

/-- A digit character is never the decimal point. -/
theorem decDigit_ne_dot (n : ℕ) : decDigit n ≠ '.' := by
  have h : ∀ k, k < 10 → Char.ofNat (48 + k) ≠ '.' := by decide
  exact h (n % 10) (Nat.mod_lt _ (by norm_num))

/-- The decimal rendering of a natural number contains no decimal
point. -/
theorem natDecCharsAux_no_dot :
    ∀ (fuel n : ℕ), ∀ c ∈ natDecCharsAux fuel n, c ≠ '.'
  | 0, _ => by simp [natDecCharsAux]
  | fuel + 1, n => by
      intro c hc
      rw [natDecCharsAux] at hc
      by_cases h : n < 10
      · rw [if_pos h] at hc
        simp at hc
        subst hc
        exact decDigit_ne_dot n
      · rw [if_neg h] at hc
        simp at hc
        rcases hc with hc | hc
        · exact natDecCharsAux_no_dot fuel (n / 10) c hc
        · subst hc
          exact decDigit_ne_dot n

/-- `natDecChars` contains no decimal point. -/
theorem natDecChars_no_dot (n : ℕ) : ∀ c ∈ natDecChars n, c ≠ '.' :=
  natDecCharsAux_no_dot (n + 1) n

/-- `padDigits` emits exactly the requested number of characters. -/
theorem padDigits_length : ∀ (d n : ℕ), (padDigits n d).length = d
  | 0, _ => rfl
  | d + 1, n => by simp [padDigits, padDigits_length d]

/-- `padDigits` contains no decimal point. -/
theorem padDigits_no_dot :
    ∀ (d n : ℕ), ∀ c ∈ padDigits n d, c ≠ '.'
  | 0, _ => by simp [padDigits]
  | d + 1, n => by
      intro c hc
      simp [padDigits] at hc
      rcases hc with hc | hc
      · exact padDigits_no_dot d (n / 10) c hc
      · subst hc
        exact decDigit_ne_dot n

/-- `takeWhile (· ≠ '.')` over dot-free characters followed by a dot
yields exactly the dot-free prefix. -/
theorem takeWhile_to_dot :
    ∀ (l1 l2 : List Char), (∀ c ∈ l1, c ≠ '.') →
      List.takeWhile (fun c => c != '.') (l1 ++ '.' :: l2) = l1
  | [], l2, _ => by simp [List.takeWhile]
  | a :: l1, l2, h => by
      have ha : (a != '.') = true := by
        simpa using h a (by simp)
      simp only [List.cons_append, List.takeWhile, ha, List.append_eq]
      rw [takeWhile_to_dot l1 l2 (fun c hc => h c (by simp [hc]))]

/-- The integer rendering contains no decimal point. -/
theorem intToString_no_dot (i : ℤ) : '.' ∉ (intToString i).data := by
  intro hmem
  unfold intToString at hmem
  rw [String.data_append, List.mem_append] at hmem
  rcases hmem with hmem | hmem
  · rcases lt_or_ge i 0 with h | h
    · rw [if_pos h] at hmem
      exact absurd hmem (by decide)
    · rw [if_neg (not_lt.mpr h)] at hmem
      exact absurd hmem (by decide)
  · exact natDecChars_no_dot _ _ hmem rfl

/-- `Math.round` is the identity on integers. -/
theorem jsRound_intCast (n : ℤ) : jsRound ((n : ℚ)) = n := by
  unfold jsRound
  rw [Int.floor_int_add]
  norm_num

/-! ## Claim theorems -/

/-- C1: for every glyph with a font of `unitsPerEm = n` (`n ≠ 0`) and a
stored path, `getPath(x, y, fontSize)` returns a new path whose command
list is exactly the stored list with every coordinate pair `(px, py)` of
every command mapped to `(x + px·scale, y − py·scale)` where
`scale = fontSize / n`; consequently the list has the same length and
the i-th command keeps the i-th stored command's type.  (Defaults
`x = 0`, `y = 0`, `fontSize = 72` are the instance used by the witness,
which also checks the spec's example: at `unitsPerEm = 1000`,
`fontSize = 72` the stored point `(500, 300)` maps to `(36, -21.6)`.) -/
theorem getPath_renders (g : Glyph) (f : Font) (pp : Path) (x y fontSize : ℚ)
    (hf : g.font = some f) (hp : g.path = some pp) (hu : f.unitsPerEm ≠ 0) :
    g.getPath x y fontSize =
      some { Path.new with
              commands :=
                pp.commands.map (renderSpecMap x y (fontSize / f.unitsPerEm)) } ∧
    (pp.commands.map (renderSpecMap x y (fontSize / f.unitsPerEm))).length =
      pp.commands.length ∧
    (pp.commands.map (renderSpecMap x y (fontSize / f.unitsPerEm))).map cmdLetter =
      pp.commands.map cmdLetter := by
  refine ⟨?_, by simp, ?_⟩
  · unfold Glyph.getPath
    rw [hf, hp]
    show some (getPathLoop x y (1 / f.unitsPerEm * fontSize) pp.commands Path.new) = _
    rw [getPathLoop_commands]
    simp only [Path.new, List.nil_append, Option.some.injEq]
    congr 1
    apply List.map_congr_left
    intro cmd _
    exact codeMap_eq_renderSpecMap x y f.unitsPerEm fontSize cmd
  · rw [List.map_map]
    apply List.map_congr_left
    intro cmd _
    exact cmdLetter_renderSpecMap x y (fontSize / f.unitsPerEm) cmd

/-- Witness for C1: the spec's scale example, at the default arguments
`(0, 0, 72)` with `unitsPerEm = 1000` — the stored point `(500, 300)`
lands at `(36, -21.6)`. -/
theorem getPath_renders_witness :
    glyphEx.getPath 0 0 72 =
      some { Path.new with commands := [PathCommand.move 36 (-21.6)] } := by
  have h := (getPath_renders glyphEx fontEx pathEx 0 0 72 rfl rfl
    (by norm_num [fontEx])).1
  rw [h]
  norm_num [pathEx, renderSpecMap, fontEx]

/-- C10: the constructor's `unicodes` initializer parses as
`(options.unicodes || options.unicode !== undefined) ? [options.unicode] : []`,
so whenever a `unicodes` list is supplied (arrays are always truthy) or
`unicode` is defined, the stored `unicodes` is the singleton
`[options.unicode]` — a supplied list is never stored, and a list
supplied without `unicode` yields `[undefined]`; only with both absent
is `unicodes` the empty list. -/
theorem ofOptions_unicodes (o : GlyphOptions) :
    ((o.unicodes.isSome ∨ o.unicode.isSome) →
        (Glyph.ofOptions o).unicodes = [o.unicode]) ∧
    (∀ l, o.unicodes = some l → o.unicode = none →
        (Glyph.ofOptions o).unicodes = [none]) ∧
    (o.unicodes = none → o.unicode = none →
        (Glyph.ofOptions o).unicodes = []) := by
  refine ⟨fun h => ?_, fun l hl hu => ?_, fun hl hu => ?_⟩
  · simp only [Glyph.ofOptions]
    have : (o.unicodes.isSome || o.unicode.isSome) = true := by
      rcases h with h | h <;> simp [h]
    rw [if_pos this]
  · simp [Glyph.ofOptions, hl, hu]
  · simp [Glyph.ofOptions, hl, hu]

/-- Witness for C10: options carrying `unicodes = [65, 66]` and no
`unicode` produce the glyph field `unicodes = [undefined]`, not the
supplied list. -/
theorem ofOptions_unicodes_witness :
    (Glyph.ofOptions optsEx).unicodes = [none] := by
  exact (ofOptions_unicodes optsEx).2.1 [some 65, some 66] rfl rfl

/-- C4: for a glyph carrying a point list whose last point is flagged
`lastPointOfContour`, `getContours` succeeds with exactly one contour
per flagged point, and the in-order concatenation of the contours is the
original point list; for a glyph carrying no point list it returns the
empty contour list instead of failing. -/
theorem getContours_partitions :
    (∀ (g : Glyph) (pts : List ContourPoint), g.points = some pts →
       (∀ h : pts ≠ [], (pts.getLast h).lastPointOfContour = true) →
       ∃ cs, g.getContours = Except.ok cs ∧
         cs.length = pts.countP (fun q => q.lastPointOfContour) ∧
         flat cs = pts) ∧
    (∀ g : Glyph, g.points = none → g.getContours = Except.ok []) := by
  constructor
  · intro g pts hp hlast
    unfold Glyph.getContours
    rw [hp]
    show ∃ cs, checkArgument ((contoursLoop pts [] []).2.length == 0)
        "There are still points left in the current contour."
        (contoursLoop pts [] []).1 = Except.ok cs ∧ _
    rcases List.eq_nil_or_concat pts with hnil | ⟨_, _, hcons⟩
    · subst hnil
      exact ⟨[], rfl, by simp, rfl⟩
    · have hne : pts ≠ [] := by rw [hcons]; simp
      have h2 := contoursLoop_last_flag pts [] [] hne (hlast hne)
      refine ⟨(contoursLoop pts [] []).1, ?_, ?_, ?_⟩
      · rw [h2]
        rfl
      · simpa using contoursLoop_fst_length pts [] []
      · have hj := contoursLoop_join pts [] []
        rw [h2] at hj
        simpa [flat] using hj
  · intro g hp
    unfold Glyph.getContours
    rw [hp]

/-- Witness for C4: a three-point list with flags at positions 0 and 2
splits into exactly 2 contours that concatenate back to the list. -/
theorem getContours_partitions_witness :
    ∃ cs, glyphPts.getContours = Except.ok cs ∧
      cs.length = 2 ∧ flat cs = ptsOk := by
  obtain ⟨cs, h1, h2, h3⟩ :=
    getContours_partitions.1 glyphPts ptsOk rfl (fun _ => rfl)
  exact ⟨cs, h1, by rw [h2]; rfl, h3⟩

/-- C5: for a glyph whose point list leaves a non-empty in-progress
contour after the full scan — any non-empty list whose final point is
not flagged `lastPointOfContour` — `getContours` raises the fatal,
descriptive invariant error and produces no contour list. -/
theorem getContours_fatal (g : Glyph) (pts : List ContourPoint)
    (hp : g.points = some pts) (hne : pts ≠ [])
    (hlast : (pts.getLast hne).lastPointOfContour = false) :
    g.getContours =
      Except.error "There are still points left in the current contour." := by
  have h2 := contoursLoop_last_noflag pts [] [] hne hlast
  unfold Glyph.getContours
  rw [hp]
  show checkArgument ((contoursLoop pts [] []).2.length == 0)
      "There are still points left in the current contour."
      (contoursLoop pts [] []).1 = _
  have hlen : ((contoursLoop pts [] []).2.length == 0) = false := by
    simpa [List.length_eq_zero] using h2
  rw [hlen]
  rfl

/-- Witness for C5: a single unflagged point makes `getContours` fail
with the source's error message. -/
theorem getContours_fatal_witness :
    glyphBad.getContours =
      Except.error "There are still points left in the current contour." :=
  getContours_fatal glyphBad ptsBad rfl (by simp [ptsBad]) rfl

/-- C3: `getMetrics` collects the endpoint of every non-`Close` command
plus `x1,y1` of `Quad`/`Cubic` and `x2,y2` of `Cubic`, reduces the
collected x's and y's with min/max into the bounding box, sets
`leftSideBearing = 0` and
`rightSideBearing = advanceWidth − leftSideBearing − (xMax − xMin)`.
(The witness instantiates the spec's example square with
`advanceWidth = 12`, giving `rightSideBearing = 2`.) -/
theorem getMetrics_spec (g : Glyph) (pp : Path) (hp : g.path = some pp) :
    ∃ m, g.getMetrics = some m ∧
      m.xMin = jsMin (collectXs pp.commands) ∧
      m.yMin = jsMin (collectYs pp.commands) ∧
      m.xMax = jsMax (collectXs pp.commands) ∧
      m.yMax = jsMax (collectYs pp.commands) ∧
      m.leftSideBearing = 0 ∧
      (∀ a b, m.xMin = some a → m.xMax = some b →
        m.rightSideBearing =
          some (g.advanceWidth - m.leftSideBearing - (b - a))) := by
  have hxy : metricsLoop pp.commands [] [] =
      (collectXs pp.commands, collectYs pp.commands) := by
    simpa using metricsLoop_eq pp.commands [] []
  unfold Glyph.getMetrics
  rw [hp]
  refine ⟨_, rfl, by simp [hxy], by simp [hxy], by simp [hxy], by simp [hxy],
    rfl, ?_⟩
  intro a b ha hb
  simp only [hxy] at ha hb
  simp [hxy, ha, hb]

/-- Witness for C3: the spec's metrics example — the square outline
`Move(0,0), Line(10,0), Line(10,10), Line(0,10), Close` with
`advanceWidth = 12` yields `xMin = 0`, `yMin = 0`, `xMax = 10`,
`yMax = 10`, `leftSideBearing = 0`, `rightSideBearing = 2`. -/
theorem getMetrics_spec_witness :
    ∃ m, glyphSq.getMetrics = some m ∧
      m.xMin = some 0 ∧ m.yMin = some 0 ∧
      m.xMax = some 10 ∧ m.yMax = some 10 ∧
      m.leftSideBearing = 0 ∧ m.rightSideBearing = some 2 := by
  obtain ⟨m, hm, h1, h2, h3, h4, h5, h6⟩ := getMetrics_spec glyphSq pathSq rfl
  have hx : collectXs pathSq.commands = [0, 10, 10, 0] := rfl
  have hy : collectYs pathSq.commands = [0, 0, 10, 10] := rfl
  rw [hx] at h1 h3
  rw [hy] at h2 h4
  have e1 : m.xMin = some 0 := by
    rw [h1]; norm_num [jsMin, min_def]
  have e3 : m.xMax = some 10 := by
    rw [h3]; norm_num [jsMax, max_def]
  have e6 := h6 0 10 e1 e3
  rw [h5] at e6
  refine ⟨m, hm, e1, ?_, e3, ?_, h5, by rw [e6]; norm_num [glyphSq, baseGlyph]⟩
  · rw [h2]; norm_num [jsMin, min_def]
  · rw [h4]; norm_num [jsMax, max_def]

/-- C9: on an outline with zero coordinate-bearing commands (empty, or
only `Close` commands) `getMetrics` returns — without raising any
error — a metrics record whose bounding box (and hence right side
bearing) is not a finite number (`Math.min`/`Math.max` of nothing,
modelled `none`), rather than a numeric fallback. -/
theorem getMetrics_degenerate (g : Glyph) (pp : Path)
    (hp : g.path = some pp)
    (hz : ∀ c ∈ pp.commands, c = PathCommand.close) :
    ∃ m, g.getMetrics = some m ∧
      m.xMin = none ∧ m.yMin = none ∧ m.xMax = none ∧ m.yMax = none ∧
      m.rightSideBearing = none := by
  have hx := collectXs_all_close pp.commands hz
  have hy := collectYs_all_close pp.commands hz
  have hxy : metricsLoop pp.commands [] [] = ([], []) := by
    simpa [hx, hy] using metricsLoop_eq pp.commands [] []
  unfold Glyph.getMetrics
  rw [hp]
  exact ⟨_, rfl, by simp [hxy, jsMin, jsMax]⟩

/-- Witness for C9: a glyph whose outline is a single `Close` command
gets the degenerate (non-finite) bounding box and no error. -/
theorem getMetrics_degenerate_witness :
    ∃ m, glyphZ.getMetrics = some m ∧
      m.xMin = none ∧ m.yMin = none ∧ m.xMax = none ∧ m.yMax = none ∧
      m.rightSideBearing = none := by
  refine getMetrics_degenerate glyphZ pathZ rfl ?_
  intro c hc
  simpa [pathZ] using hc

/-- C6: `toPathData` prints every coordinate through `floatToString`
(see the `toPathData_packing` theorem), and `floatToString` renders a
mathematically whole value with no decimal point, and any non-whole
value fixed to exactly `decimalPlaces` fractional digits after the
decimal point (with `decimalPlaces = 0` `toFixed` prints no point and
hence zero fractional digits). -/
theorem floatToString_digits (dp : ℕ) (v : ℚ) :
    ((∃ n : ℤ, v = (n : ℚ)) → '.' ∉ (floatToString dp v).data) ∧
    ((∀ n : ℤ, v ≠ (n : ℚ)) → fracDigits (floatToString dp v) = dp) := by
  constructor
  · rintro ⟨n, rfl⟩
    unfold floatToString
    rw [if_pos (by rw [jsRound_intCast])]
    exact intToString_no_dot _
  · intro h
    unfold floatToString
    rw [if_neg (fun heq => h (jsRound v) heq.symm)]
    cases dp with
    | zero =>
        have hdata : (toFixed 0 v).data =
            (if v < 0 then ['-'] else []) ++
              natDecChars (⌊|v| * (10 : ℚ) ^ 0 + 1 / 2⌋).toNat := by
          unfold toFixed toFixedChars
          simp
        unfold fracDigits
        rw [if_neg]
        intro hmem
        rw [hdata, List.mem_append] at hmem
        rcases hmem with hmem | hmem
        · split at hmem
          · exact absurd hmem (by decide)
          · exact absurd hmem (by decide)
        · exact natDecChars_no_dot _ _ hmem rfl
    | succ d =>
        have hdata : (toFixed (d + 1) v).data =
            ((if v < 0 then ['-'] else []) ++
                natDecChars
                  ((⌊|v| * (10 : ℚ) ^ (d + 1) + 1 / 2⌋).toNat / 10 ^ (d + 1))) ++
              '.' :: padDigits (⌊|v| * (10 : ℚ) ^ (d + 1) + 1 / 2⌋).toNat (d + 1) := by
          unfold toFixed toFixedChars
          rw [if_neg (Nat.succ_ne_zero d)]
          simp
        unfold fracDigits
        rw [hdata, if_pos (by simp)]
        have hrev : (((if v < 0 then ['-'] else []) ++
              natDecChars
                ((⌊|v| * (10 : ℚ) ^ (d + 1) + 1 / 2⌋).toNat / 10 ^ (d + 1))) ++
              '.' :: padDigits (⌊|v| * (10 : ℚ) ^ (d + 1) + 1 / 2⌋).toNat (d + 1)).reverse =
            (padDigits (⌊|v| * (10 : ℚ) ^ (d + 1) + 1 / 2⌋).toNat (d + 1)).reverse ++
              '.' :: ((if v < 0 then ['-'] else []) ++
                natDecChars
                  ((⌊|v| * (10 : ℚ) ^ (d + 1) + 1 / 2⌋).toNat / 10 ^ (d + 1))).reverse := by
          simp
        rw [hrev, takeWhile_to_dot _ _ (fun c hc =>
            padDigits_no_dot (d + 1) _ c (List.mem_reverse.mp hc)),
          List.length_reverse, padDigits_length]

/-- The `packValues` loop, started at index `i` with accumulator `s`,
appends the index-aware separator-and-text rendering of its values. -/
theorem packValuesGo_eq (dp : ℕ) :
    ∀ (vs : List ℚ) (i : ℕ) (s : String),
      packValuesGo dp vs i s =
        s ++ strJoin ((withIdx i vs).map
          (fun iv => sepSpec iv.1 iv.2 ++ floatToString dp iv.2))
  | [], i, s => by simp [packValuesGo, withIdx, strJoin]
  | v :: rest, i, s => by
      rw [packValuesGo, packValuesGo_eq dp rest (i + 1), withIdx]
      simp [strJoin, sepSpec, Nat.pos_iff_ne_zero, String.append_assoc]

/-- The `toPathData` loop appends each command's text in order. -/
theorem toPathDataLoop_eq (dp : ℕ) :
    ∀ (cmds : List PathCommand) (d : String),
      toPathDataLoop dp cmds d = d ++ strJoin (cmds.map (cmdText dp))
  | [], d => by simp [toPathDataLoop, strJoin]
  | c :: rest, d => by
      rw [toPathDataLoop, toPathDataLoop_eq dp rest]
      simp [strJoin, String.append_assoc]

/-- Each command's text is its type letter immediately followed by the
specification-side packing of its coordinates. -/
theorem cmdText_eq_spec (dp : ℕ) (c : PathCommand) :
    cmdText dp c = cmdLetter c ++ packSpec dp (cmdCoords c) := by
  cases c <;>
    simp [cmdText, cmdLetter, cmdCoords, packSpec, packValues,
      packValuesGo_eq dp, strJoin]

/-- Witness for C6: the whole coordinate `36` prints with no decimal
point, and the non-whole coordinate `1/2` prints with exactly `2`
fractional digits at the default `decimalPlaces = 2`. -/
theorem floatToString_digits_witness :
    '.' ∉ (floatToString 2 (36 : ℚ)).data ∧
      fracDigits (floatToString 2 ((1 : ℚ) / 2)) = 2 := by
  constructor
  · exact (floatToString_digits 2 36).1 ⟨36, by norm_num⟩
  · refine (floatToString_digits 2 ((1 : ℚ) / 2)).2 ?_
    intro n hn
    have hfl := congrArg (fun q : ℚ => ⌊q⌋) hn
    simp only [Int.floor_intCast] at hfl
    norm_num at hfl
    rw [← hfl] at hn
    norm_num at hn

/-- C7: the output of `toPathData` is, command by command in order, the
command's type letter (`M`, `L`, `Q`, `C` or `Z`) immediately followed
by its coordinate list, in which a separating space precedes a value
exactly when that value is non-negative and is not the first value of
its command (`sepSpec`) — never before a negative value or a first
value. -/
theorem toPathData_packing (p : Path) (dp : ℕ) :
    p.toPathData dp =
      strJoin (p.commands.map
        (fun c => cmdLetter c ++ packSpec dp (cmdCoords c))) := by
  unfold Path.toPathData
  rw [toPathDataLoop_eq, String.empty_append]
  congr 1
  apply List.map_congr_left
  intro c _
  exact cmdText_eq_spec dp c

/-- The recording context appends exactly the received call. -/
theorem applyCall_trace (s : List DrawCall) (c : DrawCall) :
    applyCall traceCtx s c = s ++ [c] := by
  cases c <;> rfl

/-- Replaying into the recording context appends the replayed calls. -/
theorem replay_trace :
    ∀ (calls acc : List DrawCall), replay traceCtx acc calls = acc ++ calls
  | [], acc => by simp [replay]
  | c :: rest, acc => by
      show replay traceCtx (applyCall traceCtx acc c) rest = acc ++ c :: rest
      rw [applyCall_trace, replay_trace rest]
      simp

/-- The command loop of `draw` is the replay of one primitive call per
command, in order. -/
theorem drawLoop_replay (ctx : Ctx σ) :
    ∀ (cmds : List PathCommand) (s : σ),
      drawLoop ctx cmds s = replay ctx s (cmds.map primCall)
  | [], _ => rfl
  | c :: rest, s => by
      have ih := drawLoop_replay ctx rest
      cases c <;> simp [drawLoop, replay, List.foldl_cons, applyCall, primCall, ih]

/-- No command's primitive call is the fill instruction. -/
theorem primCall_ne_fill (c : PathCommand) : primCall c ≠ DrawCall.fill := by
  cases c <;> simp [primCall]

/-- No command's primitive call is the stroke instruction. -/
theorem primCall_ne_stroke (c : PathCommand) : primCall c ≠ DrawCall.stroke := by
  cases c <;> simp [primCall]

/-- C8: `draw` issues — after the initial `beginPath` — exactly one
primitive call per command, in the original order and with the
command's own coordinates, then a fill instruction (style set + fill)
iff `fill` is set, then a stroke instruction (style + width set +
stroke) iff `stroke` is set; and the ordered call sequence received by
*any* drawing context is exactly this trace, a function of the path's
state alone — so two conforming sinks receive the identical ordered
primitive-call sequence. -/
theorem draw_replay_invariance (p : Path) :
    (∀ (σ : Type) (ctx : Ctx σ) (s : σ),
        p.draw ctx s = replay ctx s p.drawTrace) ∧
    p.drawTrace =
      DrawCall.beginPath :: (p.commands.map primCall ++
        (if jsTruthyStr p.fill then
          [DrawCall.setFillStyle (p.fill.getD ""), DrawCall.fill] else []) ++
        (if jsTruthyStr p.stroke then
          [DrawCall.setStrokeStyle (p.stroke.getD ""),
           DrawCall.setLineWidth p.strokeWidth, DrawCall.stroke] else [])) ∧
    (DrawCall.fill ∈ p.drawTrace ↔ jsTruthyStr p.fill = true) ∧
    (DrawCall.stroke ∈ p.drawTrace ↔ jsTruthyStr p.stroke = true) := by
  have htrace : p.drawTrace =
      DrawCall.beginPath :: (p.commands.map primCall ++
        (if jsTruthyStr p.fill then
          [DrawCall.setFillStyle (p.fill.getD ""), DrawCall.fill] else []) ++
        (if jsTruthyStr p.stroke then
          [DrawCall.setStrokeStyle (p.stroke.getD ""),
           DrawCall.setLineWidth p.strokeWidth, DrawCall.stroke] else [])) := by
    unfold Path.drawTrace Path.draw
    simp only [drawLoop_replay, replay_trace]
    by_cases hf : jsTruthyStr p.fill <;> by_cases hs : jsTruthyStr p.stroke <;>
      simp [hf, hs, traceCtx]
  refine ⟨?_, htrace, ?_, ?_⟩
  · intro σ ctx s
    rw [htrace]
    unfold Path.draw
    simp only [drawLoop_replay]
    by_cases hf : jsTruthyStr p.fill <;> by_cases hs : jsTruthyStr p.stroke <;>
      simp [hf, hs, replay, List.foldl_append, List.foldl_cons, applyCall]
  · rw [htrace]
    by_cases hf : jsTruthyStr p.fill <;>
      simp [hf, primCall_ne_fill, List.mem_map]
  · rw [htrace]
    by_cases hs : jsTruthyStr p.stroke <;>
      simp [hs, primCall_ne_stroke, List.mem_map]

/-- C2 (code bug): because line 459 of src/src/glyph.js tests
`this.fill & this.fill !== 'black'` with the bitwise `&` (not `&&`),
the colour string is coerced through `ToInt32` — `0` for every
non-numeric colour string and for `null` — so the guard is always
falsy on such fills: `toSVG` emits *no* fill attribute for the
non-default fill `'red'`, and *no* `fill="none"` for a `null` fill,
contradicting the documented omission rules. -/
theorem toSVG_fill_never_emitted :
    pathRed.toSVG 2 = "<path d=\"\"/>" ∧
      pathNoFill.toSVG 2 = "<path d=\"\"/>" := by
  constructor <;> rfl

end OT
